import Mathlib

/-!
Verification of the `filters` crate: composable boolean predicates and their
combinator algebra, in two universes (infallible `Filter<N>` returning `bool`,
and failable `FailableFilter<N, E>` returning `Result<bool, E>`), plus the
iterator adapters over sequences of `Result` values.

A predicate over `α` is embedded as a function `α → Bool`; a failable
predicate over `α` with error type `ε` as a function `α → Except ε Bool`
(`Except.ok` embeds Rust's `Ok`, `Except.error` embeds `Err`).  Each
combinator struct stores its children by value and exposes a `filter`
method; we embed each such method as a Lean function taking the children
as arguments.

Short-circuiting ("the right operand is never evaluated") is an operational
property of Rust's `&&` and `?`.  To state it we also give each combinator a
second, instrumented semantics over side-channel predicates that thread an
evaluation counter (the spec's "observable side-channel counter"): an
instrumented predicate takes the current counter and returns its result
together with the updated counter.  The instrumented definitions follow
exactly the control flow of the Rust bodies, with `&&` desugared to
`if _ then _ else false` and `?` desugared to an early-return match, which
is what the Rust compiler does.
-/

namespace Filters

/-- A side-channel (instrumented) infallible predicate over `α`: takes the
current evaluation counter and returns the boolean together with the updated
counter. -/
def CntPred (α : Type) : Type := α → Nat → Bool × Nat

/-- A side-channel (instrumented) failable predicate over `α` with error
type `ε`. -/
def FCntPred (α ε : Type) : Type := α → Nat → Except ε Bool × Nat

/-- Instrument a pure infallible predicate so that every evaluation bumps
the shared counter by one. -/
def tick (p : α → Bool) : CntPred α := fun x n => (p x, n + 1)

/-- Embed a pure infallible predicate into the side-channel world without
touching the counter (used for the operand whose evaluations we do not
count). -/
def silent (p : α → Bool) : CntPred α := fun x n => (p x, n)

/-- Instrument a pure failable predicate so that every evaluation bumps the
shared counter by one. -/
def tickF (p : α → Except ε Bool) : FCntPred α ε := fun x n => (p x, n + 1)

/-- Embed a pure failable predicate into the side-channel world without
touching the counter. -/
def silentF (p : α → Except ε Bool) : FCntPred α ε := fun x n => (p x, n)

/-- Rust struct `And<T, U>` (src/ops/and.rs), whose generated method is
`fn filter(&self, e: &I) -> bool { self.a.filter(e) && self.b.filter(e) }`. -/
def And.filter (a b : α → Bool) (x : α) : Bool :=
  a x && b x

/-- Instrumented semantics of `And::filter`: Rust's `p && q` is
`if p { q } else { false }`, so the right child is only invoked when the
left child returned `true`. -/
def And.filterCnt (a b : CntPred α) (x : α) (n : Nat) : Bool × Nat :=
  let r := a x n
  if r.1 then b x r.2 else (false, r.2)

/-- Rust struct `XOr<T, U>` (src/ops/xor.rs), whose generated method is
`fn filter(&self, e: &I) -> bool { self.a.filter(e) ^ self.b.filter(e) }`. -/
def XOr.filter (a b : α → Bool) (x : α) : Bool :=
  Bool.xor (a x) (b x)

/-- Instrumented semantics of `XOr::filter`: Rust's `^` on booleans is a
strict operator, both children are always invoked. -/
def XOr.filterCnt (a b : CntPred α) (x : α) (n : Nat) : Bool × Nat :=
  let r := a x n
  let s := b x r.2
  (Bool.xor r.1 s.1, s.2)

/-- Rust struct `Not<T>` (src/ops/not.rs), whose generated method is
`fn filter(&self, e: &I) -> bool { !self.0.filter(e) }`. -/
def Not.filter (a : α → Bool) (x : α) : Bool :=
  !(a x)

/-- Rust struct `Bool` (src/ops/bool.rs): stores one boolean constant. -/
structure BoolFilter : Type where
  b : Bool

/-- Rust `Bool::new(b)` (src/ops/bool.rs). -/
def BoolFilter.new (b : Bool) : BoolFilter :=
  { b := b }

/-- Generated method of the `Bool` struct:
`fn filter(&self, e: &I) -> bool { self.b }` — it ignores its input. -/
def BoolFilter.filter (f : BoolFilter) (_x : α) : Bool :=
  f.b

/-- Rust struct `FailableAnd<T, U>` (src/failable/ops/and.rs):
`fn filter(&self, e) -> Result<bool, E> { Ok(self.0.filter(e)? && self.1.filter(e)?) }`.
The `?` on the left child is an early return of its error; `&&` then only
evaluates the right child when the left returned `true`, in which case the
right child's result (error or boolean) is the overall result. -/
def FailableAnd.filter (a b : α → Except ε Bool) (x : α) : Except ε Bool :=
  match a x with
  | Except.error e => Except.error e
  | Except.ok sa => if sa then b x else Except.ok false

/-- Instrumented semantics of `FailableAnd::filter`, same control flow with
the side-channel counter threaded through. -/
def FailableAnd.filterCnt (a b : FCntPred α ε) (x : α) (n : Nat) :
    Except ε Bool × Nat :=
  match a x n with
  | (Except.error e, n1) => (Except.error e, n1)
  | (Except.ok sa, n1) => if sa then b x n1 else (Except.ok false, n1)

/-- Rust struct `FailableXOr<T, U>` (src/failable/ops/xor.rs):
`fn filter(&self, e) -> Result<bool, E> { Ok(self.0.filter(e)? ^ self.1.filter(e)?) }`.
Both `?` operators are early returns, evaluated left to right; `^` on
booleans is strict. -/
def FailableXOr.filter (a b : α → Except ε Bool) (x : α) : Except ε Bool :=
  match a x with
  | Except.error e => Except.error e
  | Except.ok sa =>
    match b x with
    | Except.error e => Except.error e
    | Except.ok sb => Except.ok (Bool.xor sa sb)

/-- Instrumented semantics of `FailableXOr::filter`, same control flow with
the side-channel counter threaded through. -/
def FailableXOr.filterCnt (a b : FCntPred α ε) (x : α) (n : Nat) :
    Except ε Bool × Nat :=
  match a x n with
  | (Except.error e, n1) => (Except.error e, n1)
  | (Except.ok sa, n1) =>
    match b x n1 with
    | (Except.error e, n2) => (Except.error e, n2)
    | (Except.ok sb, n2) => (Except.ok (Bool.xor sa sb), n2)

/-- Rust struct `IntoFailable<F, E>` (src/ops/failable.rs):
`fn filter(&self, e: &N) -> Result<bool, E> { Ok(self.0.filter(e)) }`.
`Filter::into_failable` (src/filter.rs) wraps an infallible predicate in
this struct. -/
def IntoFailable.filter (p : α → Bool) (x : α) : Except ε Bool :=
  Except.ok (p x)

/-- Rust struct `FailableMapErr<F, M, FE, E>` (src/failable/ops/map.rs):
`fn filter(&self, e: &T) -> Result<bool, E> { self.0.filter(e).map_err(&self.1) }`;
Rust's `Result::map_err` is `Except.mapError`. -/
def FailableMapErr.filter (p : α → Except ε₁ Bool) (m : ε₁ → ε₂) (x : α) :
    Except ε₂ Bool :=
  (p x).mapError m

/-- Claim C3: for all infallible predicates `a`, `b` and inputs `x`,
`a.and(b).filter(x)` equals `a.filter(x) && b.filter(x)`, and `b` is not
evaluated when `a.filter(x)` is `false`: with a counter on `b`, the count
after one evaluation is `1` exactly when `a x` is `true`, `0` otherwise. -/
theorem and_spec (a b : α → Bool) (x : α) :
    And.filter a b x = (a x && b x)
    ∧ And.filterCnt (silent a) (tick b) x 0 = (a x && b x, if a x then 1 else 0) := by
  refine ⟨rfl, ?_⟩
  unfold And.filterCnt silent tick
  cases h : a x <;> simp [h]

/-- Claim C4: for all infallible predicates `a`, `b` and inputs `x`,
`a.xor(b).filter(x)` is `true` exactly when `a.filter(x)` and `b.filter(x)`
differ, and both operands are always evaluated: with a counter on both
children, the count after one evaluation is always `2`. -/
theorem xor_spec (a b : α → Bool) (x : α) :
    (XOr.filter a b x = true ↔ a x ≠ b x)
    ∧ XOr.filterCnt (tick a) (tick b) x 0 = (Bool.xor (a x) (b x), 2) := by
  constructor
  · unfold XOr.filter
    cases h : a x <;> cases h2 : b x <;> simp [h, h2]
  · unfold XOr.filterCnt tick
    rfl

/-- Claim C8: double negation is the identity on infallible predicates:
`a.not().not().filter(x) = a.filter(x)`. -/
theorem not_not_id (a : α → Bool) (x : α) :
    Not.filter (Not.filter a) x = a x := by
  unfold Not.filter
  cases a x <;> rfl

/-- Claim C10: the boolean literal `false` is a right identity for
infallible XOR: `a.xor(Bool::new(false)).filter(x) = a.filter(x)`; moreover
`Bool::new(b)` returns its stored constant for every input. -/
theorem xor_bool_false_id (a : α → Bool) (x : α) :
    XOr.filter a ((BoolFilter.new false).filter) x = a x
    ∧ ∀ (b : Bool) (y : α), (BoolFilter.new b).filter y = b := by
  constructor
  · unfold XOr.filter BoolFilter.filter BoolFilter.new
    cases a x <;> rfl
  · intro b y
    rfl

/-- Rust `FilterOksIter<T, E, I, F>` (src/iter.rs): its `next` loops over
the source, returns every `Err(e)` element immediately without consulting
the predicate, and returns an `Ok(t)` element only when `self.1.filter(&t)`
holds, dropping it otherwise.  Collecting the iterator over a finite source
list yields this list. -/
def filterOks (f : α → Bool) : List (Except ε α) → List (Except ε α)
  | [] => []
  | Except.error e :: rest => Except.error e :: filterOks f rest
  | Except.ok t :: rest =>
    if f t then Except.ok t :: filterOks f rest else filterOks f rest

/-- Instrumented collection of `FilterOksIter` over a side-channel
predicate, same control flow with the evaluation counter threaded
through. -/
def filterOksCnt (f : CntPred α) : List (Except ε α) → Nat → List (Except ε α) × Nat
  | [], n => ([], n)
  | Except.error e :: rest, n =>
    let r := filterOksCnt f rest n
    (Except.error e :: r.1, r.2)
  | Except.ok t :: rest, n =>
    let s := f t n
    let r := filterOksCnt f rest s.2
    if s.1 then (Except.ok t :: r.1, r.2) else r

/-- Rust `FilterErrIter<T, E, I, F>` (src/iter.rs): symmetric to
`FilterOksIter`, every `Ok(t)` element passes through unchanged and an
`Err(e)` element is kept only when `self.1.filter(&e)` holds. -/
def filterErrs (f : ε → Bool) : List (Except ε α) → List (Except ε α)
  | [] => []
  | Except.ok t :: rest => Except.ok t :: filterErrs f rest
  | Except.error e :: rest =>
    if f e then Except.error e :: filterErrs f rest else filterErrs f rest

/-- The elements `filter_oks` keeps: every `Err`, and the `Ok(t)` with
`f t = true`. -/
def keepOk (f : α → Bool) : Except ε α → Bool
  | Except.error _ => true
  | Except.ok t => f t

/-- The elements `filter_errs` keeps: every `Ok`, and the `Err(e)` with
`f e = true`. -/
def keepErr (f : ε → Bool) : Except ε α → Bool
  | Except.ok _ => true
  | Except.error e => f e

/-- Discriminator for the `Ok` variant. -/
def isOk : Except ε α → Bool
  | Except.ok _ => true
  | Except.error _ => false

/-- Claim C1: evaluating `a.and(b)` at `x` first evaluates `a`; if `a`
returns an error that error is returned and `b` is never evaluated (counter
on `b` stays `0`); if `a` returns `Ok(false)` the result is `Ok(false)` and
`b` is never evaluated; otherwise `b` is evaluated (counter `1`) and its
result, error or boolean, is returned verbatim. -/
theorem failableAnd_spec (a b : α → Except ε Bool) (x : α) :
    (FailableAnd.filter a b x =
      match a x with
      | Except.error e => Except.error e
      | Except.ok false => Except.ok false
      | Except.ok true => b x)
    ∧ FailableAnd.filterCnt (silentF a) (tickF b) x 0 =
      (match a x with
       | Except.error e => (Except.error e, 0)
       | Except.ok false => (Except.ok false, 0)
       | Except.ok true => (b x, 1)) := by
  constructor
  · unfold FailableAnd.filter
    cases h : a x with
    | error e => rfl
    | ok sa => cases sa <;> simp
  · unfold FailableAnd.filterCnt silentF tickF
    cases h : a x with
    | error e => simp [h]
    | ok sa => cases sa <;> simp [h]

/-- Claim C2: evaluating `a.xor(b)` at `x` follows strict left-to-right
early return: `a` first; if `a` errors, that error is returned and `b` is
never evaluated (counter on `b` stays `0`); otherwise `b` is evaluated
(counter `1`); if `b` errors, that error is returned; otherwise the result
is `Ok` of the boolean XOR of the two successes. -/
theorem failableXOr_spec (a b : α → Except ε Bool) (x : α) :
    (FailableXOr.filter a b x =
      match a x with
      | Except.error e => Except.error e
      | Except.ok sa =>
        match b x with
        | Except.error e => Except.error e
        | Except.ok sb => Except.ok (Bool.xor sa sb))
    ∧ FailableXOr.filterCnt (silentF a) (tickF b) x 0 =
      (match a x with
       | Except.error e => (Except.error e, 0)
       | Except.ok sa =>
         match b x with
         | Except.error e => (Except.error e, 1)
         | Except.ok sb => (Except.ok (Bool.xor sa sb), 1)) := by
  constructor
  · rfl
  · unfold FailableXOr.filterCnt silentF tickF
    cases h : a x with
    | error e => simp [h]
    | ok sa =>
      cases h2 : b x with
      | error e => simp [h, h2]
      | ok sb => simp [h, h2]

/-- Claim C5: the bridge adapter built by `p.into_failable()` is a failable
predicate with unit error type whose evaluation at `x` always succeeds with
`Ok(p.filter(x))`; it never returns the error variant. -/
theorem intoFailable_spec (p : α → Bool) (x : α) :
    IntoFailable.filter p x = (Except.ok (p x) : Except Unit Bool)
    ∧ ∀ e : Unit, IntoFailable.filter p x ≠ (Except.error e : Except Unit Bool) := by
  exact ⟨rfl, fun e h => Except.noConfusion h⟩

/-- Claim C7: `map_err` evaluates `p` at `x`; a success `Ok(b)` passes
through unchanged, a failure `Err(e)` becomes `Err(m(e))` — the transform
is applied only on the error path. -/
theorem failableMapErr_spec (p : α → Except ε₁ Bool) (m : ε₁ → ε₂) (x : α) :
    FailableMapErr.filter p m x =
      match p x with
      | Except.ok b => Except.ok b
      | Except.error e => Except.error (m e) := by
  unfold FailableMapErr.filter Except.mapError
  cases p x <;> rfl

/-- Collecting `FilterOksIter` keeps exactly the elements selected by
`keepOk`, in source order. -/
theorem filterOks_eq_filter (p : α → Bool) (l : List (Except ε α)) :
    filterOks p l = l.filter (keepOk p) := by
  induction l with
  | nil => rfl
  | cons hd tl ih =>
    cases hd with
    | error e => simp [filterOks, List.filter_cons, keepOk, ih]
    | ok t => cases h : p t <;> simp [filterOks, List.filter_cons, keepOk, h, ih]

/-- Collecting `FilterErrIter` keeps exactly the elements selected by
`keepErr`, in source order. -/
theorem filterErrs_eq_filter (q : ε → Bool) (l : List (Except ε α)) :
    filterErrs q l = l.filter (keepErr q) := by
  induction l with
  | nil => rfl
  | cons hd tl ih =>
    cases hd with
    | ok t => simp [filterErrs, List.filter_cons, keepErr, ih]
    | error e => cases h : q e <;> simp [filterErrs, List.filter_cons, keepErr, h, ih]

/-- Instrumented collection of `FilterOksIter`: the output is the same kept
subsequence, and the predicate is invoked exactly once per `Ok` element of
the source — never on an `Err` element. -/
theorem filterOksCnt_tick (p : α → Bool) (l : List (Except ε α)) (n : Nat) :
    filterOksCnt (tick p) l n = (l.filter (keepOk p), n + l.countP isOk) := by
  induction l generalizing n with
  | nil => rfl
  | cons hd tl ih =>
    cases hd with
    | error e =>
      simp [filterOksCnt, ih, List.filter_cons, keepOk, isOk, List.countP_cons]
    | ok t =>
      cases h : p t <;>
        simp [filterOksCnt, tick, ih, List.filter_cons, keepOk, isOk,
          List.countP_cons, h] <;>
        omega

/-- Claim C6: `filter_oks` yields every `Err` element unchanged without
ever evaluating the predicate on it (the counter equals the number of `Ok`
elements of the source, whatever the `Err` elements are), and yields an
`Ok(t)` element exactly when `p.filter(t)` is true; filtering
`[Ok(1), Err(2), Ok(3), Err(4)]` by `n > 1` over `Ok` payloads yields
`[Err(2), Ok(3), Err(4)]`. -/
theorem filterOks_spec (p : α → Bool) (l : List (Except ε α)) :
    filterOks p l = l.filter (keepOk p)
    ∧ filterOksCnt (tick p) l 0 = (l.filter (keepOk p), l.countP isOk)
    ∧ filterOks (fun n => decide (1 < n))
        ([Except.ok 1, Except.error 2, Except.ok 3, Except.error 4] :
          List (Except Nat Nat))
      = [Except.error 2, Except.ok 3, Except.error 4] := by
  refine ⟨filterOks_eq_filter p l, ?_, rfl⟩
  simpa using filterOksCnt_tick p l 0

/-- Claim C9: the result-filtering adapters preserve source order — the
output of `filter_oks` (and symmetrically `filter_errs`) is exactly the
subsequence of the source consisting of the kept elements, in the source's
original relative order. -/
theorem filterOks_filterErrs_order (p : α → Bool) (q : ε → Bool)
    (l : List (Except ε α)) :
    filterOks p l = l.filter (keepOk p)
    ∧ filterErrs q l = l.filter (keepErr q)
    ∧ List.Sublist (filterOks p l) l
    ∧ List.Sublist (filterErrs q l) l := by
  refine ⟨filterOks_eq_filter p l, filterErrs_eq_filter q l, ?_, ?_⟩
  · rw [filterOks_eq_filter]
    exact List.filter_sublist l
  · rw [filterErrs_eq_filter]
    exact List.filter_sublist l

end Filters
